import Mathlib

/-!
Verification development for the OpenGL PBR + bloom demo (`hello_opengl.cpp`).

We shallowly embed the parts of the program the properties talk about:

* the bright-pass / ping-pong gaussian-blur / composite surface bookkeeping
  of the render loop (`main`, the `blurPasses` loop and the composite bind);
* the camera (`Camera::processMouseMove`, `mouse_button_callback`,
  `scroll_callback`), with C `float` modelled as `ℝ`;
* the per-frame model transform (`glm::scale` / `translate` / `rotate`
  composition), with the trigonometric values abstracted as parameters so
  everything stays in `ℚ`;
* the texture-fallback logic around `loadTexture`, with the file system
  modelled as a predicate on paths and GL texture handles abstracted to the
  identity of the texture object they denote;
* the key callback's guarded write into the `keys[1024]` table, with the raw
  array write modelled as an `Option`-returning bounds-checked update.
-/

namespace HelloGL

/-! ## Surfaces of the framebuffer graph

The program owns two families of color surfaces: the HDR target's two color
attachments (`colorBuffers[0]`, `colorBuffers[1]`) and the two ping-pong
surfaces (`pingpongColorbuffers[0]`, `pingpongColorbuffers[1]`, each attached
to the like-indexed `pingpongFBO`). -/
inductive Surface : Type
  | hdrColor (i : ℕ)
  | pingpong (i : ℕ)
  deriving DecidableEq, Repr

/-- C's implicit `bool → int` conversion used by `pingpongFBO[horizontal]`
and `pingpongColorbuffers[!horizontal]`. -/
def boolIdx (b : Bool) : ℕ := if b then 1 else 0

/-- One pass of the render loop that writes one surface and reads one
surface: `axis` is the value of the `horizontal` uniform handed to the blur
shader, `write` the surface bound as `GL_FRAMEBUFFER`, `read` the texture
bound to unit 0. -/
structure Pass : Type where
  axis : Bool
  write : Surface
  read : Surface
  deriving DecidableEq, Repr

/-- The bright-pass extraction (step 2 of the loop body): renders into
`pingpongFBO[0]` reading `colorBuffers[1]`. The `axis` flag is unused by
this pass; the source sets no such uniform, we record `true` as a dummy. -/
def brightPass : Pass :=
  { axis := true, write := Surface.pingpong 0, read := Surface.hdrColor 1 }

/-- Iteration `i` of the blur loop with current value `h` of `horizontal`:
writes `pingpongFBO[horizontal]`, reads `pingpongColorbuffers[0]` when
`i == 0` (the bright result) and `pingpongColorbuffers[!horizontal]`
otherwise. -/
def blurStep (i : ℕ) (h : Bool) : Pass :=
  { axis := h
    write := Surface.pingpong (boolIdx h)
    read := if i = 0 then Surface.pingpong 0 else Surface.pingpong (boolIdx (!h)) }

/-- The blur `for` loop, unrolled from loop counter `i` with `n` iterations
remaining and `horizontal = h`; returns the list of passes performed and the
final value of `horizontal`. -/
def blurLoop : ℕ → ℕ → Bool → List Pass × Bool
  | _, 0, h => ([], h)
  | i, n + 1, h =>
    let rest := blurLoop (i + 1) n (!h)
    (blurStep i h :: rest.1, rest.2)

/-- `int blurPasses = 15;` -/
def blurPassesN : ℕ := 15

/-- The whole blur phase: `horizontal` starts at `true`, the loop counter at
`0`, and `N` iterations run. -/
def runBlur (N : ℕ) : List Pass × Bool := blurLoop 0 N true

/-- The texture the composite step binds to unit 1:
`pingpongColorbuffers[!horizontal]` with the post-loop value of the flag. -/
def compositeBloomRead (finalH : Bool) : Surface :=
  Surface.pingpong (boolIdx (!finalH))

/-- The parity-tracked value of `horizontal` after `k` flips starting
from `h`. -/
def flip (h : Bool) (k : ℕ) : Bool := if k % 2 = 0 then h else !h

theorem flip_succ (h : Bool) (k : ℕ) : flip h (k + 1) = flip (!h) k := by
  rcases Nat.even_or_odd k with hk | hk
  · have h0 : k % 2 = 0 := Nat.even_iff.mp hk
    have h1 : (k + 1) % 2 = 1 := by omega
    simp [flip, h0, h1]
  · have h0 : k % 2 = 1 := Nat.odd_iff.mp hk
    have h1 : (k + 1) % 2 = 0 := by omega
    simp [flip, h0, h1]

/-- The blur loop body at position `k` of `blurLoop i n h` is
`blurStep (i + k) (flip h k)`. -/
theorem blurLoop_get (n : ℕ) : ∀ (i : ℕ) (h : Bool) (k : ℕ), k < n →
    (blurLoop i n h).1.get? k = some (blurStep (i + k) (flip h k)) := by
  induction n with
  | zero => intro i h k hk; omega
  | succ m ih =>
    intro i h k hk
    cases k with
    | zero => simp [blurLoop, flip]
    | succ j =>
      have hj : j < m := by omega
      have := ih (i + 1) (!h) j hj
      simp only [blurLoop, List.get?]
      rw [this, flip_succ]
      congr 2
      omega

/-- The final value of `horizontal` after `blurLoop i n h` is `flip h n`. -/
theorem blurLoop_final (n : ℕ) : ∀ (i : ℕ) (h : Bool),
    (blurLoop i n h).2 = flip h n := by
  induction n with
  | zero => intro i h; simp [blurLoop, flip]
  | succ m ih =>
    intro i h
    simp only [blurLoop]
    rw [ih (i + 1) (!h), flip_succ]

theorem runBlur_get (N k : ℕ) (hk : k < N) :
    (runBlur N).1.get? k = some (blurStep k (flip true k)) := by
  have := blurLoop_get N 0 true k hk
  simpa [runBlur] using this

theorem runBlur_final (N : ℕ) : (runBlur N).2 = flip true N :=
  blurLoop_final N 0 true

theorem flip_not (h : Bool) (k : ℕ) : flip (!h) k = !(flip h k) := by
  unfold flip
  by_cases hk : k % 2 = 0 <;> simp [hk]

theorem blurLoop_length (n : ℕ) : ∀ (i : ℕ) (h : Bool),
    (blurLoop i n h).1.length = n := by
  induction n with
  | zero => intro i h; simp [blurLoop]
  | succ m ih => intro i h; simp [blurLoop, ih (i + 1) (!h)]

/-- **C1.** With `blurPasses = 15` and `horizontal` starting at `true`, the
composite step's bind of `pingpongColorbuffers[!horizontal]` (post-loop flag
value) is exactly the surface written by the final blur iteration. -/
theorem composite_reads_last_blur_write :
    (runBlur blurPassesN).1.getLast?.map Pass.write =
      some (compositeBloomRead (runBlur blurPassesN).2) := by
  decide

/-- **C2, counterexample.** Already at `N = 2`, iteration `1` reads the very
surface that iteration `0` wrote (`pingpongColorbuffers[1]`), not — as the
claim states — the surface that was *not* written at iteration `0`
(`pingpongColorbuffers[0]`). -/
theorem blur_read_counterexample :
    ((runBlur 2).1.get? 0).map Pass.write = some (Surface.pingpong 1) ∧
    ((runBlur 2).1.get? 1).map Pass.read = some (Surface.pingpong 1) ∧
    ((runBlur 2).1.get? 1).map Pass.read ≠ some (Surface.pingpong 0) := by
  decide

/-- **C2, amended.** For every `N` and every iteration `i < N`: the axis flag
at iteration `i` is `true` iff `i` is even; iteration `0` reads ping-pong
surface `0` (the bright-pass output); and each iteration `i = j + 1` reads
exactly the surface that iteration `j` wrote (equivalently, not the surface
written at iteration `i` itself). -/
theorem blur_schedule_spec (N i : ℕ) (hi : i < N) :
    ∃ p : Pass, (runBlur N).1.get? i = some p ∧
      (p.axis = true ↔ i % 2 = 0) ∧
      (i = 0 → p.read = Surface.pingpong 0) ∧
      (∀ j : ℕ, i = j + 1 →
        ∃ q : Pass, (runBlur N).1.get? j = some q ∧ p.read = q.write) := by
  refine ⟨blurStep i (flip true i), runBlur_get N i hi, ?_, ?_, ?_⟩
  · unfold flip
    by_cases h2 : i % 2 = 0 <;> simp [blurStep, h2]
  · intro h0
    simp [blurStep, h0]
  · intro j hj
    have hjN : j < N := by omega
    refine ⟨blurStep j (flip true j), runBlur_get N j hjN, ?_⟩
    subst hj
    have hne : j + 1 ≠ 0 := by omega
    have hflip : Bool.not (flip true (j + 1)) = flip true j := by
      rw [flip_succ, flip_not, Bool.not_not]
    simp [blurStep, hne, hflip]

/-- **C7.** No pass feeds back into itself: the bright-pass extraction and
every blur iteration (for every pass count `N`) read a surface distinct from
the one they write. -/
theorem pingpong_no_self_feedback (N : ℕ) (p : Pass)
    (hp : p ∈ (runBlur N).1) :
    brightPass.write ≠ brightPass.read ∧ p.write ≠ p.read := by
  refine ⟨by decide, ?_⟩
  obtain ⟨k, hk⟩ := List.mem_iff_get?.mp hp
  have hkN : k < N := by
    have hlen : (runBlur N).1.length = N := blurLoop_length N 0 true
    obtain ⟨hlt, -⟩ := List.get?_eq_some.mp hk
    omega
  rw [runBlur_get N k hkN] at hk
  injection hk with hk
  subst hk
  rcases Nat.eq_zero_or_pos k with h0 | h0
  · subst h0
    simp only [blurStep, flip, Nat.zero_mod]
    decide
  · have hne : k ≠ 0 := by omega
    cases h : flip true k <;>
      simp [blurStep, hne, h, boolIdx, Surface.pingpong.injEq]

/-- Witness for `pingpong_no_self_feedback` at `N = 1` and the single pass
of that run. -/
theorem pingpong_no_self_feedback_witness :
    brightPass.write ≠ brightPass.read ∧
      (blurStep 0 true).write ≠ (blurStep 0 true).read :=
  pingpong_no_self_feedback 1 (blurStep 0 true) (by decide)

/-- Witness for `blur_schedule_spec` at `N = 2`, `i = 1`. -/
theorem blur_schedule_spec_witness :
    ∃ p : Pass, (runBlur 2).1.get? 1 = some p ∧
      (p.axis = true ↔ 1 % 2 = 0) ∧
      (1 = 0 → p.read = Surface.pingpong 0) ∧
      (∀ j : ℕ, 1 = j + 1 →
        ∃ q : Pass, (runBlur 2).1.get? j = some q ∧ p.read = q.write) :=
  blur_schedule_spec 2 1 (by decide)

/-! ## Camera

C `float` is modelled as `ℝ`. -/

structure Vec3 : Type where
  x : ℝ
  y : ℝ
  z : ℝ

/-- `glm::normalize`: scale by the reciprocal of the euclidean length. -/
noncomputable def normalizeV (v : Vec3) : Vec3 :=
  let len := Real.sqrt (v.x ^ 2 + v.y ^ 2 + v.z ^ 2)
  ⟨v.x / len, v.y / len, v.z / len⟩

/-- `glm::radians`. -/
noncomputable def radians (d : ℝ) : ℝ := d * (Real.pi / 180)

/-- `struct Camera` with its default member initializers. -/
structure Camera : Type where
  pos : Vec3 := ⟨0, 1.5, 10⟩
  front : Vec3 := ⟨0, 0, -1⟩
  up : Vec3 := ⟨0, 1, 0⟩
  yaw : ℝ := -90
  pitch : ℝ := -10
  fov : ℝ := 45
  lastX : ℝ := 400
  lastY : ℝ := 300
  firstMouse : Bool := true
  mouseDown : Bool := false

/-- A freshly constructed `Camera` (all default initializers). -/
noncomputable def initCamera : Camera := {}

/-- `Camera::processMouseMove`. Note that `firstMouse` is never read here:
the function branches only on `mouseDown`. -/
noncomputable def processMouseMove (cam : Camera) (xpos ypos : ℝ) : Camera :=
  if cam.mouseDown = false then { cam with lastX := xpos, lastY := ypos }
  else
    let xoffset := xpos - cam.lastX
    let yoffset := cam.lastY - ypos
    let sensitivity : ℝ := 0.18
    let xoffset2 := xoffset * sensitivity
    let yoffset2 := yoffset * sensitivity
    let yaw2 := cam.yaw + xoffset2
    let pitchA := cam.pitch + yoffset2
    let pitchB := if pitchA > 89 then (89 : ℝ) else pitchA
    let pitchC := if pitchB < -89 then (-89 : ℝ) else pitchB
    let dir : Vec3 :=
      ⟨Real.cos (radians yaw2) * Real.cos (radians pitchC),
       Real.sin (radians pitchC),
       Real.sin (radians yaw2) * Real.cos (radians pitchC)⟩
    { cam with lastX := xpos, lastY := ypos, yaw := yaw2, pitch := pitchC,
               front := normalizeV dir }

/-- `GLFW_PRESS`. -/
def GLFW_PRESS : ℤ := 1

/-- `GLFW_RELEASE`. -/
def GLFW_RELEASE : ℤ := 0

/-- `GLFW_MOUSE_BUTTON_RIGHT`. -/
def GLFW_MOUSE_BUTTON_RIGHT : ℤ := 1

/-- `mouse_button_callback`: on a right-button event, record whether the
button is now down and raise `firstMouse`. -/
def mouse_button_callback (cam : Camera) (button action : ℤ) : Camera :=
  if button = GLFW_MOUSE_BUTTON_RIGHT then
    { cam with mouseDown := decide (action = GLFW_PRESS), firstMouse := true }
  else cam

/-- `scroll_callback`: adjust the field of view and clamp it to `[15, 90]`. -/
noncomputable def scroll_callback (cam : Camera) (yoffset : ℝ) : Camera :=
  let fovA := cam.fov - yoffset
  let fovB := if fovA < 15 then (15 : ℝ) else fovA
  let fovC := if fovB > 90 then (90 : ℝ) else fovB
  { cam with fov := fovC }

/-- **C5.** After any drag-active mouse-move update the stored pitch lies in
`[-89, 89]`, and after any scroll update the stored field of view lies in
`[15, 90]`. -/
theorem pitch_fov_clamped (cam : Camera) (x y dy : ℝ)
    (h : cam.mouseDown = true) :
    (-89 ≤ (processMouseMove cam x y).pitch ∧
      (processMouseMove cam x y).pitch ≤ 89) ∧
    (15 ≤ (scroll_callback cam dy).fov ∧
      (scroll_callback cam dy).fov ≤ 90) := by
  constructor
  · simp only [processMouseMove, h]
    norm_num
    split_ifs <;> constructor <;> linarith
  · simp only [scroll_callback]
    split_ifs <;> constructor <;> linarith

/-- Witness for `pitch_fov_clamped`: a camera whose drag is active. -/
theorem pitch_fov_clamped_witness :
    (-89 ≤ (processMouseMove { mouseDown := true } 0 0).pitch ∧
      (processMouseMove { mouseDown := true } 0 0).pitch ≤ 89) ∧
    (15 ≤ (scroll_callback { mouseDown := true } 0).fov ∧
      (scroll_callback { mouseDown := true } 0).fov ≤ 90) :=
  pitch_fov_clamped { mouseDown := true } 0 0 0 rfl

theorem cos_cos_sq_add (a b : ℝ) :
    (Real.cos a * Real.cos b) ^ 2 + Real.sin b ^ 2 +
      (Real.sin a * Real.cos b) ^ 2 = 1 := by
  have ha := Real.sin_sq_add_cos_sq a
  have hb := Real.sin_sq_add_cos_sq b
  nlinarith [ha, hb]

theorem normalizeV_unit (v : Vec3) (hv : v.x ^ 2 + v.y ^ 2 + v.z ^ 2 = 1) :
    (normalizeV v).x ^ 2 + (normalizeV v).y ^ 2 + (normalizeV v).z ^ 2 = 1 := by
  simp only [normalizeV, hv, Real.sqrt_one, div_one]

/-- **C8.** After every drag-active mouse update the camera's facing
direction has unit length (its squared euclidean norm is `1`). -/
theorem front_unit_length (cam : Camera) (x y : ℝ)
    (h : cam.mouseDown = true) :
    ((processMouseMove cam x y).front.x) ^ 2 +
      ((processMouseMove cam x y).front.y) ^ 2 +
      ((processMouseMove cam x y).front.z) ^ 2 = 1 := by
  simp only [processMouseMove, h]
  norm_num
  exact normalizeV_unit _ (cos_cos_sq_add _ _)

/-- Witness for `front_unit_length`: a camera whose drag is active. -/
theorem front_unit_length_witness :
    ((processMouseMove { mouseDown := true } 0 0).front.x) ^ 2 +
      ((processMouseMove { mouseDown := true } 0 0).front.y) ^ 2 +
      ((processMouseMove { mouseDown := true } 0 0).front.z) ^ 2 = 1 :=
  front_unit_length { mouseDown := true } 0 0 rfl

/-- **C9.** A mouse-move event received while the drag is inactive records
only the last cursor position; yaw, pitch, front, position, up and field of
view are unchanged. -/
theorem inactive_move_only_records (cam : Camera) (x y : ℝ)
    (h : cam.mouseDown = false) :
    (processMouseMove cam x y).lastX = x ∧
    (processMouseMove cam x y).lastY = y ∧
    (processMouseMove cam x y).yaw = cam.yaw ∧
    (processMouseMove cam x y).pitch = cam.pitch ∧
    (processMouseMove cam x y).front = cam.front ∧
    (processMouseMove cam x y).pos = cam.pos ∧
    (processMouseMove cam x y).up = cam.up ∧
    (processMouseMove cam x y).fov = cam.fov := by
  simp [processMouseMove, h]

/-- Witness for `inactive_move_only_records` at the initial camera. -/
theorem inactive_move_only_records_witness :
    (processMouseMove initCamera 1 2).lastX = 1 ∧
    (processMouseMove initCamera 1 2).lastY = 2 ∧
    (processMouseMove initCamera 1 2).yaw = initCamera.yaw ∧
    (processMouseMove initCamera 1 2).pitch = initCamera.pitch ∧
    (processMouseMove initCamera 1 2).front = initCamera.front ∧
    (processMouseMove initCamera 1 2).pos = initCamera.pos ∧
    (processMouseMove initCamera 1 2).up = initCamera.up ∧
    (processMouseMove initCamera 1 2).fov = initCamera.fov :=
  inactive_move_only_records initCamera 1 2 rfl

/-- **C3 (bug evidence).** `mouse_button_callback` raises `firstMouse`, but
`processMouseMove` never reads it: starting a drag with the last recorded
cursor position at `(0, 0)` and then moving to `(100, 0)` changes yaw from
`-90` to `-90 + 100 * 0.18 = -72`, so the very first move after a drag start
does rotate the camera. -/
theorem drag_start_first_move_rotates :
    (mouse_button_callback { lastX := 0, lastY := 0 }
        GLFW_MOUSE_BUTTON_RIGHT GLFW_PRESS).firstMouse = true ∧
    (mouse_button_callback { lastX := 0, lastY := 0 }
        GLFW_MOUSE_BUTTON_RIGHT GLFW_PRESS).yaw = -90 ∧
    (processMouseMove
        (mouse_button_callback { lastX := 0, lastY := 0 }
          GLFW_MOUSE_BUTTON_RIGHT GLFW_PRESS) 100 0).yaw = -72 := by
  refine ⟨rfl, rfl, ?_⟩
  simp only [mouse_button_callback, processMouseMove]
  norm_num

/-! ## The per-frame model transform

`model_m = I · scale(K) · translate(walkPos, walkAxis, 0) · rotate(θ, y)`;
acting on a point this is `scale ∘ translate ∘ rotate`. The cosine of the
walk phase (`cos(currentFrame * walkSpeed)`) and the cosine/sine of the spin
angle enter only as values, so they are abstracted as rational parameters
`cw` and `c`, `s`, keeping everything in `ℚ`. -/

structure Vec3Q : Type where
  x : ℚ
  y : ℚ
  z : ℚ
  deriving DecidableEq, Repr

/-- `glm::scale(M, vec3(K))` acting on a point. -/
def scaleApply (k : ℚ) (v : Vec3Q) : Vec3Q := ⟨k * v.x, k * v.y, k * v.z⟩

/-- `glm::translate(M, t)` acting on a point. -/
def translateApply (t v : Vec3Q) : Vec3Q := ⟨v.x + t.x, v.y + t.y, v.z + t.z⟩

/-- `glm::rotate(M, θ, vec3(0,1,0))` acting on a point, with `c = cos θ`
and `s = sin θ`. -/
def rotateYApply (c s : ℚ) (v : Vec3Q) : Vec3Q :=
  ⟨c * v.x + s * v.z, v.y, -s * v.x + c * v.z⟩

/-- `const float walkSpeed = 2.0f;` -/
def walkSpeed : ℚ := 2

/-- `const float walkRange = 4.0f;` -/
def walkRange : ℚ := 4

/-- `const float walkAxis = 0.0f;` (the fixed walk height on the y axis). -/
def walkAxis : ℚ := 0

/-- `float ScaleFactor = 3.0f;` -/
def ScaleFactor : ℚ := 3

/-- The composed model transform of the geometry pass applied to a point:
scale by `K`, then translate by `(A * cw, walkAxis, 0)` where `cw` stands
for `cos(currentFrame * walkSpeed)` and `A` for `walkRange`, then rotate
about the y axis by the spin angle with cosine `c` and sine `s`. -/
def modelApply (K A cw c s : ℚ) (p : Vec3Q) : Vec3Q :=
  scaleApply K (translateApply ⟨A * cw, walkAxis, 0⟩ (rotateYApply c s p))

/-- **C4, counterexample.** With scale factor `K = 2`, amplitude `A = 1` and
walk phase cosine `cw = 1` (e.g. `T = 0`), the origin is mapped to
`x = K * A * cw = 2`, not to `A * cw = 1` as the claim states: the
oscillation offset is magnified by the scale because the translation is
composed after the scale in the matrix product. -/
theorem model_origin_counterexample :
    (modelApply 2 1 1 1 0 ⟨0, 0, 0⟩).x = 2 ∧
    (modelApply 2 1 1 1 0 ⟨0, 0, 0⟩).x ≠ 1 * 1 := by
  norm_num [modelApply, scaleApply, translateApply, rotateYApply, walkAxis]

/-- **C4, amended.** For every scale factor `K`, amplitude `A`, walk phase
cosine `cw` and spin angle (any `c`, `s`): the origin is mapped to
`(K * (A * cw), 0, 0)` — zero on the two spin axes and `K` times the
oscillation offset `A * cw` on the oscillation axis, independent of the
rotation angle. -/
theorem model_origin_position (K A cw c s : ℚ) :
    modelApply K A cw c s ⟨0, 0, 0⟩ = ⟨K * (A * cw), 0, 0⟩ := by
  simp [modelApply, scaleApply, translateApply, rotateYApply, walkAxis]

/-! ## Texture loading and fallbacks

`loadTexture` returns the GL handle `0` on a failed `stbi_load`, modelled as
`none`; a successful load yields a texture object identified by its source
path. The file system is a predicate `fs` on paths: `fs p = true` iff the
image at `p` exists and decodes. -/

/-- Identity of a GL texture object: either the generated 1×1 opaque-white
texture or a texture loaded from an image file. -/
inductive Tex : Type
  | white
  | file (path : String)
  deriving DecidableEq, Repr

/-- Model of `loadTexture`: `none` exactly when the image is missing or
fails to decode (the C function returns handle `0`). -/
def loadTexture (fs : String → Bool) (path : String) : Option Tex :=
  if fs path then some (Tex.file path) else none

/-- Lines 350–356: load the albedo texture; if that fails (`!texAlbedo`),
generate a 1×1 opaque-white texture in its place. -/
def texAlbedo (fs : String → Bool) : Tex :=
  match loadTexture fs "resources/albedo.png" with
  | some t => t
  | none => Tex.white

/-- The C idiom `tex ? tex : texAlbedo` used when binding texture units
1–4: a zero (failed) handle silently falls back to the albedo texture. -/
def bindOr (fs : String → Bool) (o : Option Tex) : Tex :=
  match o with
  | some t => t
  | none => texAlbedo fs

/-- The five textures the geometry pass binds to units 0–4
(lines 431–435). -/
def boundTextures (fs : String → Bool) : List Tex :=
  [texAlbedo fs,
   bindOr fs (loadTexture fs "resources/normal.png"),
   bindOr fs (loadTexture fs "resources/metallic.png"),
   bindOr fs (loadTexture fs "resources/roughness.png"),
   bindOr fs (loadTexture fs "resources/ao.png")]

/-- **C6.** Every slot whose image is missing binds the albedo texture in
its place; a missing albedo image is replaced by the 1×1 white texture; and
when no asset exists at all, all five bound textures are the white fallback
(the bindings are total — no failure escapes). -/
theorem texture_fallbacks (fs : String → Bool) :
    (∀ slot : String, fs slot = false →
      bindOr fs (loadTexture fs slot) = texAlbedo fs) ∧
    (fs "resources/albedo.png" = false → texAlbedo fs = Tex.white) ∧
    ((∀ q : String, fs q = false) →
      boundTextures fs = List.replicate 5 Tex.white) := by
  refine ⟨?_, ?_, ?_⟩
  · intro slot hslot
    simp [bindOr, loadTexture, hslot]
  · intro halb
    simp [texAlbedo, loadTexture, halb]
  · intro hall
    simp [boundTextures, bindOr, texAlbedo, loadTexture, hall, List.replicate]

/-- Witness for `texture_fallbacks` on the empty file system. -/
theorem texture_fallbacks_witness :
    bindOr (fun _ : String => false)
        (loadTexture (fun _ : String => false) "resources/normal.png") =
      texAlbedo (fun _ : String => false) ∧
    texAlbedo (fun _ : String => false) = Tex.white ∧
    boundTextures (fun _ : String => false) = List.replicate 5 Tex.white := by
  obtain ⟨h1, h2, h3⟩ := texture_fallbacks (fun _ : String => false)
  exact ⟨h1 "resources/normal.png" rfl, h2 rfl, h3 (fun _ => rfl)⟩

/-! ## Key callback and the `keys[1024]` table -/

/-- `GLFW_KEY_ESCAPE`. -/
def GLFW_KEY_ESCAPE : ℤ := 256

/-- A raw C array write `tab[key] = v`, bounds-checked in the model:
`none` when the index falls outside the table. -/
def setKey (tab : List Bool) (key : ℤ) (v : Bool) : Option (List Bool) :=
  if 0 ≤ key ∧ key.toNat < tab.length then some (tab.set key.toNat v) else none

/-- Result of `key_callback`: the (possibly failed) updated key table, and
whether `glfwSetWindowShouldClose` was invoked. -/
structure KeyCbResult : Type where
  keys : Option (List Bool)
  shouldClose : Bool
  deriving DecidableEq, Repr

/-- `key_callback`: ESC closes the window; the key table is written only
under the guard `key >= 0 && key < 1024`. -/
def key_callback (tab : List Bool) (key action : ℤ) : KeyCbResult :=
  { shouldClose := decide (key = GLFW_KEY_ESCAPE ∧ action = GLFW_PRESS)
    keys :=
      if 0 ≤ key ∧ key < 1024 then
        if action = GLFW_PRESS then setKey tab key true
        else if action = GLFW_RELEASE then setKey tab key false
        else some tab
      else some tab }

/-- **C10.** On the 1024-entry table, `key_callback` never performs an
out-of-bounds write for any integer key code and any action, and any event
whose key code lies outside `[0, 1024)` leaves the table unchanged. -/
theorem key_callback_safe (tab : List Bool) (key action : ℤ)
    (hlen : tab.length = 1024) :
    (key_callback tab key action).keys ≠ none ∧
    (¬ (0 ≤ key ∧ key < 1024) →
      (key_callback tab key action).keys = some tab) := by
  constructor
  · simp only [key_callback]
    split_ifs with hrange hp hr
    · have hk : key.toNat < tab.length := by omega
      simp [setKey, hrange.1, hk]
    · have hk : key.toNat < tab.length := by omega
      simp [setKey, hrange.1, hk]
    · simp
    · simp
  · intro hout
    simp [key_callback, hout]

/-- Witness for `key_callback_safe`: the negative key code `-5` leaves the
all-false table unchanged. -/
theorem key_callback_safe_witness :
    (key_callback (List.replicate 1024 false) (-5) GLFW_PRESS).keys ≠ none ∧
    (¬ ((0 : ℤ) ≤ -5 ∧ (-5 : ℤ) < 1024) →
      (key_callback (List.replicate 1024 false) (-5) GLFW_PRESS).keys =
        some (List.replicate 1024 false)) :=
  key_callback_safe (List.replicate 1024 false) (-5) GLFW_PRESS
    (List.length_replicate 1024 false)

end HelloGL
